import Mathlib

/-!
Verification development for the user-agent classification module
(`packages/polyfill-library/lib/UA.js`).

The module is embedded shallowly:

* JS strings are Lean `String`s (scanning is done on the underlying
  `List Char`, which models the code-unit view used by the regexes;
  all inputs of interest are ASCII).
* The structured record produced by the external `useragent` parser is the
  `Agent` structure; version components are `Nat` (the JS code compares
  them numerically via `Number(...)` coercions).
* External collaborators that are not part of this repository
  (`useragent.parse`, `useragent`'s semver `satisfies`, `lru-cache`) are
  modelled from the spec: `parse` is an explicit function parameter of the
  classification, the semver evaluator and the bounded LRU cache are
  spec-modelled definitions below.
* The in-source regular expressions (fast-path shape, noise stripping)
  are translated into explicit deterministic scanners; each one's
  derivation from the regex is noted at its definition.
-/

/-- The structured browser record `{family, major, minor, patch}`
(`useragent.Agent`).  Version components are modelled as `Nat`. -/
structure Agent where
  family : String
  major : Nat
  minor : Nat
  patch : Nat
deriving DecidableEq

/-- JS `s.substr(0, n)` (used with `MAX_UA_LEN = 300` at UA.js:198). -/
def jsSubstr (s : String) (n : Nat) : String :=
  ⟨s.data.take n⟩

/-- JS `s.toLowerCase()` modelled on basic-latin letters (all table keys and
canonical families are ASCII). -/
def lowerStr (s : String) : String :=
  ⟨s.data.map Char.toLower⟩

/-- JS regex `\w` character class: `[A-Za-z0-9_]`. -/
def wordChar (c : Char) : Bool :=
  c.isAlphanum || c == '_'

/-- JS regex `\d` character class. -/
def digitChar (c : Char) : Bool :=
  c.isDigit

/-- Numeric value of a digit string (the way `Number` reads a digit run). -/
def natOfDigits (l : List Char) : Nat :=
  l.foldl (fun a c => a * 10 + (c.toNat - 48)) 0

/-- `Number(s)` on a component string: `some n` when `s` is a nonempty digit
run, `none` for the NaN outcome. -/
def digitsToNat? (l : List Char) : Option Nat :=
  if l ≠ [] ∧ l.all digitChar then some (natOfDigits l) else none

/-- JS `s.split('.')` on the code-unit list. -/
def splitDots : List Char → List (List Char)
  | [] => [[]]
  | c :: r =>
    if c = '.' then [] :: splitDots r
    else
      match splitDots r with
      | h :: t => (c :: h) :: t
      | [] => [c :: []]

/-- The canonical-shape regex `^(\w+)\/(\d+)(?:\.(\d+)(?:\.(\d+))?)?$`
(UA.js:203; the same language as the anchored regex at UA.js:324).
Returns the captured groups: name (as written, case preserved), major,
optional minor, optional patch.  The regex is deterministic: `\w+` is the
maximal word run (the following `/` is not a word char), and each `\d+` is a
maximal digit run (the following `.` or end is not a digit), so greedy
matching with backtracking coincides with this scanner. -/
def canonicalShape (l : List Char) : Option (String × Nat × Option Nat × Option Nat) :=
  let name := l.takeWhile wordChar
  if name.isEmpty then none else
  match l.dropWhile wordChar with
  | '/' :: r =>
    let d1 := r.takeWhile digitChar
    if d1.isEmpty then none else
    match r.dropWhile digitChar with
    | [] => some (⟨name⟩, natOfDigits d1, none, none)
    | '.' :: r2 =>
      let d2 := r2.takeWhile digitChar
      if d2.isEmpty then none else
      match r2.dropWhile digitChar with
      | [] => some (⟨name⟩, natOfDigits d1, some (natOfDigits d2), none)
      | '.' :: r3 =>
        let d3 := r3.takeWhile digitChar
        if d3.isEmpty then none else
        match r3.dropWhile digitChar with
        | [] => some (⟨name⟩, natOfDigits d1, some (natOfDigits d2), some (natOfDigits d3))
        | _ => none
      | _ => none
    | _ => none
  | _ => none

/-- Boolean test of the canonical shape (the regex test in `UA.normalize`,
UA.js:324; the `/i` flag is irrelevant since `\w` and `\d` are case-closed). -/
def canonicalShapeB (s : String) : Bool :=
  (canonicalShape s.data).isSome

/-- The record built from the shape captures at UA.js:208:
`new useragent.Agent(m[1], m[2], m[3] || 0, m[4] || 0)`. -/
def agentOfShape (g : String × Nat × Option Nat × Option Nat) : Agent :=
  ⟨g.1, g.2.1, g.2.2.1.getD 0, g.2.2.2.getD 0⟩

/-! ### The Sanitizer's noise-stripping rules (UA.js:216-226)

Each JS `replace` call below is non-global: the leftmost match of the
pattern is removed.  A matcher takes the suffix starting at a candidate
position and returns the remainder after the matched portion, or `none`. -/

/-- Consume an exact literal (case-sensitive). -/
def matchLit : List Char → List Char → Option (List Char)
  | [], l => some l
  | c :: cs, x :: xs => if x = c then matchLit cs xs else none
  | _ :: _, [] => none

/-- Consume an exact literal case-insensitively (pattern given in lowercase);
models a literal inside a `/i` regex over ASCII. -/
def matchLitCI : List Char → List Char → Option (List Char)
  | [], l => some l
  | c :: cs, x :: xs => if Char.toLower x = c then matchLitCI cs xs else none
  | _ :: _, [] => none

/-- Consume one expected character. -/
def expectCh (c : Char) : List Char → Option (List Char)
  | x :: xs => if x = c then some xs else none
  | [] => none

/-- Consume a maximal nonempty digit run (`\d+` followed by a non-digit or
the end; deterministic for the patterns used here). -/
def digits1 (l : List Char) : Option (List Char) :=
  if (l.takeWhile digitChar).isEmpty then none else some (l.dropWhile digitChar)

/-- Consume `[\d\.]+\d+`: greedily, the longest prefix of the maximal
digit-or-dot run that ends in a digit, provided it has length at least 2
(one char for `[\d\.]+`, one for `\d+`). -/
def numDotTail (l : List Char) : Option (List Char) :=
  let run := l.takeWhile (fun c => digitChar c || c == '.')
  let p := (run.reverse.dropWhile (fun c => c == '.')).reverse
  if 2 ≤ p.length then some (l.drop p.length) else none

/-- Consume `\.\d+` . -/
def dotDigits (l : List Char) : Option (List Char) :=
  expectCh '.' l >>= digits1

/-- `/((CriOS|OPiOS)\/(\d+)\.(\d+)\.(\d+)\.(\d+)|(FxiOS\/(\d+)\.(\d+)))/`
(UA.js:216, case-sensitive). -/
def matchCriOS (l : List Char) : Option (List Char) :=
  (do
    let r ← matchLit "CriOS".data l <|> matchLit "OPiOS".data l
    let r ← expectCh '/' r
    let r ← digits1 r
    let r ← dotDigits r
    let r ← dotDigits r
    dotDigits r) <|>
  (do
    let r ← matchLit "FxiOS".data l
    let r ← expectCh '/' r
    let r ← digits1 r
    dotDigits r)

/-- `/ vivaldi\/[\d\.]+\d+/i` (UA.js:220). -/
def matchVivaldi (l : List Char) : Option (List Char) := do
  let r ← expectCh ' ' l
  let r ← matchLitCI "vivaldi".data r
  let r ← expectCh '/' r
  numDotTail r

/-- The `\/[^\]]+\]` tail of the Facebook tag pattern. -/
def fbTail (l : List Char) : Option (List Char) := do
  let r ← expectCh '/' l
  let body := r.takeWhile (fun c => !(c == ']'))
  if body.isEmpty then none else
  expectCh ']' (r.dropWhile (fun c => !(c == ']')))

/-- `/ \[(FB_IAB|FBAN|FBIOS|FB4A)\/[^\]]+\]/i` (UA.js:223); the
alternatives are tried in the regex's order, each continuing with the tail. -/
def matchFB (l : List Char) : Option (List Char) := do
  let r ← expectCh ' ' l
  let r ← expectCh '[' r
  (do fbTail (← matchLitCI "fb_iab".data r)) <|>
  (do fbTail (← matchLitCI "fban".data r)) <|>
  (do fbTail (← matchLitCI "fbios".data r)) <|>
  (do fbTail (← matchLitCI "fb4a".data r))

/-- `/ Electron\/[\d\.]+\d+/i` (UA.js:226). -/
def matchElectron (l : List Char) : Option (List Char) := do
  let r ← expectCh ' ' l
  let r ← matchLitCI "electron".data r
  let r ← expectCh '/' r
  numDotTail r

/-- Remove the leftmost match of `m` (JS non-global `replace(pattern, '')`);
none of the patterns here matches the empty string, so the empty input is
returned unchanged. -/
def replaceFirstAux (m : List Char → Option (List Char)) : List Char → Option (List Char)
  | [] => none
  | x :: xs =>
    match m (x :: xs) with
    | some rest => some rest
    | none => (replaceFirstAux m xs).map (fun r => x :: r)

/-- One non-global `replace(pattern, '')` call. -/
def replaceFirst (m : List Char → Option (List Char)) (l : List Char) : List Char :=
  (replaceFirstAux m l).getD l

/-- The Sanitizer's noise-substring removal: the four `replace` calls of
UA.js:216-226 in source order (CriOS/OPiOS/FxiOS, vivaldi, Facebook tags,
Electron). -/
def stripNoise (s : String) : String :=
  ⟨replaceFirst matchElectron
    (replaceFirst matchFB
      (replaceFirst matchVivaldi
        (replaceFirst matchCriOS s.data)))⟩

/-! ### Spec-modelled external collaborators -/

/-- Lexicographic comparison of version triples. -/
def verGe (a b : Nat × Nat × Nat) : Bool :=
  decide (b.1 < a.1) ||
  (a.1 == b.1 && (decide (b.2.1 < a.2.1) || (a.2.1 == b.2.1 && decide (b.2.2 ≤ a.2.2))))

/-- One dotted component of a plain range against a version component:
missing components and wildcards match anything, a digit run must agree. -/
def compMatch (oc : Option (List Char)) (v : Nat) : Bool :=
  match oc with
  | none => true
  | some p =>
    if p = ['*'] ∨ p = ['x'] ∨ p = ['X'] then true
    else digitsToNat? p == some v

/-- Modelled from the spec: the external semver collaborator
(`useragent/features`' `Agent.satisfies`, backed by the `semver` package;
not under `src/`).  Per the spec's glossary, a range is "a
version-comparison expression (e.g., `>=7`, `*`)".  The forms occurring in
this repository's tables are supported: `*`; `>=` followed by a dotted
version (missing components are 0); and a plain dotted version with
optional wildcard components, which matches by component (`10` matches any
`10.x.x`, `9.9.*` any `9.9.x`).  Anything else satisfies nothing. -/
def semverSatisfies (u : Agent) (range : String) : Bool :=
  match range.data with
  | ['*'] => true
  | '>' :: '=' :: rest =>
    let ps := splitDots rest
    match digitsToNat? (ps.getD 0 []), ps.get? 1, ps.get? 2 with
    | some a, ob, oc =>
      let b := (ob.bind digitsToNat?).getD 0
      let c := (oc.bind digitsToNat?).getD 0
      verGe (u.major, u.minor, u.patch) (a, b, c)
    | none, _, _ => false
  | l =>
    let ps := splitDots l
    decide (ps.length ≤ 3) && compMatch (ps.get? 0) u.major &&
      compMatch (ps.get? 1) u.minor && compMatch (ps.get? 2) u.patch

/-- Modelled from the spec: the bounded LRU `lru-cache` dependency (not
under `src/`), capacity 5000, most-recent first.  The values are the
canonical tuples stored at UA.js:294 (the leading empty-string slot of the
stored array is dropped: the tuple reconstructs the same `Agent`). -/
abbrev Cache := List (String × Agent)

/-- `cache.get(key)` (recency refreshing is omitted: it only affects which
entry a later insertion evicts, never a lookup result below capacity). -/
def cacheGet (c : Cache) (k : String) : Option Agent :=
  (c.find? (fun e => e.1 == k)).map (fun e => e.2)

/-- `cache.set(key, value)` with least-recently-used eviction at capacity
5000. -/
def cacheSet (c : Cache) (k : String) (v : Agent) : Cache :=
  ((k, v) :: c.filter (fun e => !(e.1 == k))).take 5000

/-! ### The tables (UA.js:27-193) -/

/-- `baseLineVersions` (UA.js:27-42), in declaration order. -/
def baseLineVersions : List (String × String) :=
  [("ie", ">=7"), ("ie_mob", ">=8"), ("chrome", "*"), ("safari", ">=4"),
   ("ios_saf", ">=4"), ("ios_chr", ">=4"), ("firefox", ">=3.6"),
   ("firefox_mob", ">=4"), ("android", ">=3"), ("opera", ">=11"),
   ("op_mob", ">=10"), ("op_mini", ">=5"), ("bb", ">=6"),
   ("samsung_mob", ">=4")]

/-- `baseLineVersions[f]` as an optional value (`undefined` when absent). -/
def baselineFind (f : String) : Option String :=
  (baseLineVersions.find? (fun e => e.1 == f)).map (fun e => e.2)

/-- The alias rule variants (UA.js:44-53).  A `versionMap` target carries
the record already built by `new useragent.Agent(a[0], a[1], a[2] || 0,
a[3] || 0)` (UA.js:248,263); the `computed` (function) variant exists in
the code's dispatch but has no instance in the table. -/
inductive AliasRule where
  | rename (target : String)
  | renameVer (target : String) (major minor patch : Nat)
  | versionMap (entries : List (String × Agent))
  | computed (transform : Agent → Agent)

/-- The `uc browser` per-version map (UA.js:86-89).  JS `for..in` visits the
integer-like key `"10"` before `"9.9.*"`, which here coincides with
declaration order. -/
def ucBrowserMap : List (String × Agent) :=
  [("10", ⟨"uc browser", 0, 0, 0⟩), ("9.9.*", ⟨"ie", 10, 0, 0⟩)]

/-- The `yandex browser` per-version map (UA.js:103-157); the keys contain
dots, so `for..in` visits them in declaration order. -/
def yandexMap : List (String × Agent) :=
  [("18.9", ⟨"chrome", 68, 0, 0⟩), ("18.7", ⟨"chrome", 67, 0, 0⟩),
   ("18.6", ⟨"chrome", 66, 0, 0⟩), ("18.5", ⟨"chrome", 65, 0, 0⟩),
   ("18.4", ⟨"chrome", 65, 0, 0⟩), ("18.3", ⟨"chrome", 64, 0, 0⟩),
   ("18.2", ⟨"chrome", 63, 0, 0⟩), ("18.1", ⟨"chrome", 63, 0, 0⟩),
   ("17.11", ⟨"chrome", 62, 0, 0⟩), ("17.10", ⟨"chrome", 61, 0, 0⟩),
   ("17.9", ⟨"chrome", 60, 0, 0⟩), ("17.8", ⟨"chrome", 59, 0, 0⟩),
   ("17.7", ⟨"chrome", 59, 0, 0⟩), ("17.6", ⟨"chrome", 58, 0, 0⟩),
   ("17.5", ⟨"chrome", 57, 0, 0⟩), ("17.4", ⟨"chrome", 57, 0, 0⟩),
   ("17.3", ⟨"chrome", 56, 0, 0⟩), ("17.2", ⟨"chrome", 55, 0, 0⟩),
   ("17.1", ⟨"chrome", 55, 0, 0⟩), ("16.11", ⟨"chrome", 54, 0, 0⟩),
   ("16.10", ⟨"chrome", 51, 0, 0⟩), ("16.9", ⟨"chrome", 51, 0, 0⟩),
   ("16.8", ⟨"chrome", 51, 0, 0⟩), ("16.7", ⟨"chrome", 51, 0, 0⟩),
   ("16.6", ⟨"chrome", 50, 0, 0⟩), ("16.5", ⟨"chrome", 49, 0, 0⟩),
   ("16.4", ⟨"chrome", 49, 0, 0⟩), ("16.3", ⟨"chrome", 47, 0, 0⟩),
   ("16.2", ⟨"chrome", 47, 0, 0⟩), ("16.1", ⟨"chrome", 47, 0, 0⟩),
   ("15.12", ⟨"chrome", 46, 0, 0⟩), ("15.11", ⟨"chrome", 45, 0, 0⟩),
   ("15.10", ⟨"chrome", 45, 0, 0⟩), ("15.9", ⟨"chrome", 44, 0, 0⟩),
   ("15.8", ⟨"chrome", 43, 0, 0⟩), ("15.7", ⟨"chrome", 43, 0, 0⟩),
   ("15.6", ⟨"chrome", 42, 0, 0⟩), ("15.5", ⟨"chrome", 41, 0, 0⟩),
   ("15.4", ⟨"chrome", 41, 0, 0⟩), ("15.3", ⟨"chrome", 40, 0, 0⟩),
   ("15.2", ⟨"chrome", 40, 0, 0⟩), ("15.1", ⟨"chrome", 40, 0, 0⟩),
   ("14.10", ⟨"chrome", 37, 0, 0⟩), ("14.9", ⟨"chrome", 36, 0, 0⟩),
   ("14.8", ⟨"chrome", 36, 0, 0⟩), ("14.7", ⟨"chrome", 35, 0, 0⟩),
   ("14.6", ⟨"chrome", 34, 0, 0⟩), ("14.5", ⟨"chrome", 34, 0, 0⟩),
   ("14.4", ⟨"chrome", 33, 0, 0⟩), ("14.3", ⟨"chrome", 32, 0, 0⟩),
   ("14.2", ⟨"chrome", 32, 0, 0⟩), ("13.12", ⟨"chrome", 30, 0, 0⟩),
   ("13.10", ⟨"chrome", 28, 0, 0⟩)]

/-- The `opera` per-version map (UA.js:159-188).  The keys `"20"`-`"47"`
are integer-like, so `for..in` visits them in ascending numeric order,
which coincides with declaration order. -/
def operaMap : List (String × Agent) :=
  [("20", ⟨"chrome", 33, 0, 0⟩), ("21", ⟨"chrome", 34, 0, 0⟩),
   ("22", ⟨"chrome", 35, 0, 0⟩), ("23", ⟨"chrome", 36, 0, 0⟩),
   ("24", ⟨"chrome", 37, 0, 0⟩), ("25", ⟨"chrome", 38, 0, 0⟩),
   ("26", ⟨"chrome", 39, 0, 0⟩), ("27", ⟨"chrome", 40, 0, 0⟩),
   ("28", ⟨"chrome", 41, 0, 0⟩), ("29", ⟨"chrome", 42, 0, 0⟩),
   ("30", ⟨"chrome", 43, 0, 0⟩), ("31", ⟨"chrome", 44, 0, 0⟩),
   ("32", ⟨"chrome", 45, 0, 0⟩), ("33", ⟨"chrome", 46, 0, 0⟩),
   ("34", ⟨"chrome", 47, 0, 0⟩), ("35", ⟨"chrome", 48, 0, 0⟩),
   ("36", ⟨"chrome", 49, 0, 0⟩), ("37", ⟨"chrome", 50, 0, 0⟩),
   ("38", ⟨"chrome", 51, 0, 0⟩), ("39", ⟨"chrome", 52, 0, 0⟩),
   ("40", ⟨"chrome", 53, 0, 0⟩), ("41", ⟨"chrome", 54, 0, 0⟩),
   ("42", ⟨"chrome", 55, 0, 0⟩), ("43", ⟨"chrome", 56, 0, 0⟩),
   ("44", ⟨"chrome", 57, 0, 0⟩), ("45", ⟨"chrome", 58, 0, 0⟩),
   ("46", ⟨"chrome", 59, 0, 0⟩), ("47", ⟨"chrome", 60, 0, 0⟩)]

/-- The `aliases` table (UA.js:54-193), in declaration order. -/
def aliases : List (String × AliasRule) :=
  [("blackberry webkit", .rename "bb"),
   ("blackberry", .rename "bb"),
   ("pale moon (firefox variant)", .rename "firefox"),
   ("pale moon", .rename "firefox"),
   ("firefox mobile", .rename "firefox_mob"),
   ("firefox namoroka", .rename "firefox"),
   ("firefox shiretoko", .rename "firefox"),
   ("firefox minefield", .rename "firefox"),
   ("firefox alpha", .rename "firefox"),
   ("firefox beta", .rename "firefox"),
   ("microb", .rename "firefox"),
   ("mozilladeveloperpreview", .rename "firefox"),
   ("iceweasel", .rename "firefox"),
   ("opera tablet", .rename "opera"),
   ("opera mobile", .rename "op_mob"),
   ("opera mini", .rename "op_mini"),
   ("chrome mobile", .rename "chrome"),
   ("chrome frame", .rename "chrome"),
   ("chromium", .rename "chrome"),
   ("headlesschrome", .rename "chrome"),
   ("ie mobile", .rename "ie_mob"),
   ("ie large screen", .rename "ie"),
   ("internet explorer", .rename "ie"),
   ("edge", .rename "ie"),
   ("edge mobile", .rename "ie"),
   ("uc browser", .versionMap ucBrowserMap),
   ("chrome mobile ios", .rename "ios_chr"),
   ("mobile safari", .rename "ios_saf"),
   ("iphone", .rename "ios_saf"),
   ("iphone simulator", .rename "ios_saf"),
   ("mobile safari uiwebview", .rename "ios_saf"),
   ("mobile safari ui/wkwebview", .rename "ios_saf"),
   ("samsung internet", .rename "samsung_mob"),
   ("phantomjs", .renameVer "safari" 5 0 0),
   ("yandex browser", .versionMap yandexMap),
   ("opera", .versionMap operaMap),
   ("googlebot", .versionMap [("2.1", ⟨"chrome", 41, 0, 0⟩)])]

/-- `aliases[f]` (`undefined`, hence no aliasing, when absent). -/
def aliasFind (f : String) : Option AliasRule :=
  (aliases.find? (fun e => e.1 == f)).map (fun e => e.2)

/-! ### The VersionMap nearest-match scan (UA.js:251-292) -/

/-- `Number.MAX_SAFE_INTEGER`, the initial value of both tracked diffs
(UA.js:253-254). -/
def MAXSAFE : Nat := 9007199254740991

/-- Distance between two naturals (JS `Math.abs(a - b)`). -/
def natDist (a b : Nat) : Nat :=
  max a b - min a b

/-- `Number(c || 0)` on an optional split component: a missing or empty
component is 0, a digit run is its value, anything else is NaN (`none`). -/
def jsNumComp (o : Option (List Char)) : Option Nat :=
  match o with
  | none => some 0
  | some [] => some 0
  | some l => digitsToNat? l

/-- `Math.abs(this.ua.major - Number(semverMajor || 0))` where
`[semverMajor, semverMinor] = semverExpr.split('.').slice(0,2)`
(UA.js:273-276); `none` is the NaN outcome. -/
def exprMajorDiff (u : Agent) (e : String) : Option Nat :=
  (jsNumComp (((splitDots e.data).take 2).get? 0)).map (natDist u.major)

/-- `Math.abs(this.ua.minor - Number(semverMinor || 0))` (UA.js:277). -/
def exprMinorDiff (u : Agent) (e : String) : Option Nat :=
  (jsNumComp (((splitDots e.data).take 2).get? 1)).map (natDist u.minor)

/-- The loop of UA.js:260-289 with its mutable state made explicit:
`(minDiff.major, minDiff.minor, minDiff.lastUa)`.  An exact semver match
adopts the entry's target and breaks; otherwise the nested conditionals of
UA.js:281-287 update the state.  A NaN diff (`none`) fails the `<=`
comparisons, exactly as in JS. -/
def vmGo (sat : Agent → String → Bool) (u : Agent) :
    List (String × Agent) → Nat → Nat → Agent → Nat × Nat × Agent
  | [], bM, bm, best => (bM, bm, best)
  | (e, t) :: rest, bM, bm, best =>
    if sat u e then (bM, bm, t)
    else
      match exprMajorDiff u e with
      | some dM =>
        if dM ≤ bM then
          match exprMinorDiff u e with
          | some dm =>
            if dm ≤ bm then vmGo sat u rest dM dm t
            else vmGo sat u rest dM bm best
          | none => vmGo sat u rest dM bm best
        else vmGo sat u rest bM bm best
      | none => vmGo sat u rest bM bm best

/-- The whole `versionMap` branch (UA.js:251-291): run the scan from the
`MAX_SAFE_INTEGER` state with the current record as initial candidate and
adopt `minDiff.lastUa`. -/
def versionMapRun (sat : Agent → String → Bool) (u : Agent)
    (es : List (String × Agent)) : Agent :=
  (vmGo sat u es MAXSAFE MAXSAFE u).2.2

/-- The Alias Resolver together with the preceding canonicalization steps of
the full-resolution path (UA.js:230-293): force patch to 0 (line 231),
lowercase the family (line 234), then dispatch on the alias rule. -/
def resolve (a : Agent) : Agent :=
  let u : Agent := ⟨lowerStr a.family, a.major, a.minor, 0⟩
  match aliasFind u.family with
  | none => u
  | some (.rename t) => { u with family := t }
  | some (.renameVer t M m p) => ⟨t, M, m, p⟩
  | some (.versionMap es) => versionMapRun semverSatisfies u es
  | some (.computed f) => f u

namespace UA

/-- The `UA` constructor (UA.js:195-296), with the process-wide cache and
the external parser made explicit.  Returns the classified record, the
cache after the call, and whether the Parsing Adapter (`useragent.parse`,
UA.js:228) was invoked. -/
def classify (parse : String → Agent) (c : Cache) (raw : String) :
    Agent × Cache × Bool :=
  let s := jsSubstr raw 300
  let fromShape : Option Agent :=
    if s.length < 22 then (canonicalShape s.data).map agentOfShape else none
  match fromShape with
  | some a => (a, c, false)
  | none =>
    match cacheGet c s with
    | some a => (a, c, false)
    | none =>
      let s2 := stripNoise s
      let r := resolve (parse s2)
      (r, cacheSet c s2 r, true)

/-- `UA.prototype.getFamily` (UA.js:298-300). -/
def getFamily (u : Agent) : String :=
  u.family

/-- `this.ua.toVersion()`, the dotted version string produced by the
external `useragent` record (per the spec: "dotted `major.minor.patch`
string"). -/
def toVersion (u : Agent) : String :=
  toString u.major ++ "." ++ toString u.minor ++ "." ++ toString u.patch

/-- `UA.prototype.getVersion` (UA.js:302-304). -/
def getVersion (u : Agent) : String :=
  toVersion u

/-- The external `this.ua.satisfies` applied to a possibly-`undefined`
range expression; applying it to `undefined` is not well-defined, which is
modelled as `none`. -/
def uaSatOpt (u : Agent) (e : Option String) : Option Bool :=
  e.map (semverSatisfies u)

/-- `UA.prototype.satisfies` (UA.js:306-312): caller range, then membership
of the family in `baseLineVersions`, then the family's baseline range; the
JS `&&` short-circuit means the third conjunct is only reached when the
membership test passed, which the `getD false` default respects. -/
def satisfies (u : Agent) (range : String) : Bool :=
  (uaSatOpt u (some range)).getD false &&
    (baselineFind u.family).isSome &&
    (uaSatOpt u (baselineFind u.family)).getD false

/-- `UA.prototype.getBaseline` (UA.js:313-315). -/
def getBaseline (u : Agent) : Option String :=
  baselineFind u.family

/-- `UA.prototype.meetsBaseline` (UA.js:316-318): the baseline range test
applied unconditionally; `none` when the family is absent and the external
test receives `undefined`. -/
def meetsBaseline (u : Agent) : Option Bool :=
  uaSatOpt u (baselineFind u.family)

/-- `UA.prototype.isUnknown` (UA.js:319-321); the JS `||` short-circuits,
so an absent family yields `true` without consulting the baseline test. -/
def isUnknown (u : Agent) : Bool :=
  !(baselineFind u.family).isSome || !((meetsBaseline u).getD false)

/-- `UA.normalize` (UA.js:323-329). -/
def normalize (parse : String → Agent) (c : Cache) (s : String) :
    String × Cache :=
  if canonicalShapeB s then (lowerStr s, c)
  else
    let r := classify parse c s
    (getFamily r.1 ++ "/" ++ toVersion r.1, r.2.1)

end UA

/-! ### Spec-side counterpart of the nearest-match scan, and fixtures -/

/-- Follows the spec's words (section 4.3, `VersionMap`): iterate entries in
order; on an exact semver match adopt the entry's target and stop; otherwise
track the best candidate, a later entry replacing the current best when its
major-diff is at most the best major-diff so far and, within that condition,
its minor-diff is at most the best minor-diff so far; with no exact match
adopt the final best candidate, and with no candidate at all (in particular
an empty table) return the detected record unchanged.  The best-so-far state
is an explicit `Option` here, where the code uses `MAX_SAFE_INTEGER`
sentinels. -/
def specVMGo (sat : Agent → String → Bool) (u : Agent) :
    List (String × Agent) → Option (Nat × Nat × Agent) → Agent
  | [], none => u
  | [], some b => b.2.2
  | (e, t) :: rest, b =>
    if sat u e then t
    else
      match exprMajorDiff u e, exprMinorDiff u e with
      | some dM, some dm =>
        match b with
        | none => specVMGo sat u rest (some (dM, dm, t))
        | some (bM, bm, bt) =>
          if dM ≤ bM then
            if dm ≤ bm then specVMGo sat u rest (some (dM, dm, t))
            else specVMGo sat u rest (some (dM, bm, bt))
          else specVMGo sat u rest (some (bM, bm, bt))
      | _, _ => specVMGo sat u rest b

/-- The spec-side nearest-match resolution: scan with no initial candidate. -/
def specVersionMap (sat : Agent → String → Bool) (u : Agent)
    (es : List (String × Agent)) : Agent :=
  specVMGo sat u es none

/-- Every entry of the table has numeric leading components for this
detected record and diffs within `MAX_SAFE_INTEGER` (true of all tables in
the source; the spec does not contemplate non-numeric components). -/
def vmDefined (u : Agent) (es : List (String × Agent)) : Bool :=
  es.all (fun e =>
    match exprMajorDiff u e.1, exprMinorDiff u e.1 with
    | some dM, some dm => decide (dM ≤ MAXSAFE) && decide (dm ≤ MAXSAFE)
    | _, _ => false)

/-- An instrumented stub for the external Parsing Adapter: every string
parses to the `useragent` fallback record (family `"Other"`). -/
def pstub : String → Agent := fun _ => ⟨"Other", 0, 0, 0⟩

/-- An instrumented stub for the external Parsing Adapter that detects the
string `"x"` as UC Browser 10 (the family name the real adapter reports,
which the alias table maps to the canonical family `"uc browser"`) and
falls back to `"Other"` otherwise. -/
def pstubUC : String → Agent := fun s =>
  if s = "x" then ⟨"UC Browser", 10, 0, 0⟩ else ⟨"Other", 0, 0, 0⟩

/-- JS `s.endsWith(t)`. -/
def strEndsWith (s t : String) : Bool :=
  t.data.isSuffixOf s.data

/-- A raw string whose sanitized form differs from its truncated form
(the Electron noise tag is stripped); 22 characters of padding keep it past
the fast-path length bound. -/
def cexRaw1 : String := "bbbbbbbbbbbbbbbbbbbbbb Electron/1.0"

/-- A raw string carrying a Facebook in-app tag. -/
def cexRaw2 : String := "aaaaaaaaaaaaaaaaaaaaaaaa [FBAN/x]"

/-- The sanitized form of `cexRaw2`. -/
def cexKey2 : String := "aaaaaaaaaaaaaaaaaaaaaaaa"

/-- An arbitrary canonical tuple used to prime the cache. -/
def cexAgent : Agent := ⟨"ie", 11, 0, 0⟩

/-- A raw string of length 22 whose sanitized form is `"chrome/34"`, which
is shorter than 22 characters and matches the canonical shape. -/
def cexRaw5 : String := "chrome/34 Electron/1.0"

/-- VersionMap fixture for the tracked-minor-diff analysis: entries with
diffs (0,5) and (3,0) for the detected version 10.5. -/
def vmCexEntries : List (String × Agent) :=
  [("10.0", ⟨"a", 1, 0, 0⟩), ("7.5", ⟨"b", 2, 0, 0⟩)]

/-- Detected record 10.5 for `vmCexEntries`. -/
def vmCexU : Agent := ⟨"f", 10, 5, 0⟩

/-- VersionMap fixture where the second entry strictly lowers the best
major-diff (10 to 5) without being adopted: entries with diffs (10,0) and
(5,5) for the detected version 20.0. -/
def vmAmEntries : List (String × Agent) :=
  [("10.0", ⟨"a", 1, 0, 0⟩), ("15.5", ⟨"b", 2, 0, 0⟩)]

/-- Detected record 20.0 for `vmAmEntries`. -/
def vmAmU : Agent := ⟨"f", 20, 0, 0⟩

/-- A rule's targets are canonical: lowercase family and patch 0 (checked
below for the whole table; the `computed` variant has no instance). -/
def ruleCanonical (r : AliasRule) : Bool :=
  match r with
  | .rename t => lowerStr t == t
  | .renameVer t _ _ p => (lowerStr t == t) && (p == 0)
  | .versionMap es =>
    es.all (fun e => (lowerStr e.2.family == e.2.family) && (e.2.patch == 0))
  | .computed _ => false

/-! ## Theorems -/

theorem char_toNat_ofNat (n : Nat) (h : n.isValidChar) :
    (Char.ofNat n).toNat = n := by
  simp only [Char.ofNat, dif_pos h]
  rfl

theorem charToLower_idem (c : Char) :
    Char.toLower (Char.toLower c) = Char.toLower c := by
  simp only [Char.toLower]
  by_cases h : c.toNat ≥ 65 ∧ c.toNat ≤ 90
  · rw [if_pos h]
    have hv : (c.toNat + 32).isValidChar := Or.inl (by omega)
    have h2 : (Char.ofNat (c.toNat + 32)).toNat = c.toNat + 32 :=
      char_toNat_ofNat _ hv
    rw [if_neg]
    rw [h2]
    omega
  · rw [if_neg h, if_neg h]

theorem lowerStr_idem (s : String) : lowerStr (lowerStr s) = lowerStr s := by
  unfold lowerStr
  simp only [List.map_map]
  congr 1
  apply List.map_congr_left
  intro c _
  exact charToLower_idem c

theorem cacheGet_set_self (c : Cache) (k : String) (v : Agent) :
    cacheGet (cacheSet c k v) k = some v := by
  unfold cacheGet cacheSet
  rw [show (5000 : Nat) = 4999 + 1 from rfl, List.take_succ_cons]
  rw [List.find?_cons_of_pos _ (by simp)]
  rfl

theorem cacheGet_set_none (c : Cache) (k k2 : String) (v : Agent)
    (hne : k ≠ k2) (h : cacheGet c k = none) :
    cacheGet (cacheSet c k2 v) k = none := by
  unfold cacheGet at *
  rw [Option.map_eq_none'] at *
  rw [List.find?_eq_none] at *
  intro e he
  rcases List.mem_cons.mp (List.take_subset _ _ he) with rfl | he2
  · simpa using fun hk => hne hk.symm
  · exact h e (List.mem_of_mem_filter he2)

theorem classify_of_shape (parse : String → Agent) (c : Cache) (raw : String)
    (a : Agent)
    (h : (if (jsSubstr raw 300).length < 22 then
        (canonicalShape (jsSubstr raw 300).data).map agentOfShape
      else none) = some a) :
    UA.classify parse c raw = (a, c, false) := by
  simp only [UA.classify, h]

theorem classify_of_hit (parse : String → Agent) (c : Cache) (raw : String)
    (a : Agent)
    (h1 : (if (jsSubstr raw 300).length < 22 then
        (canonicalShape (jsSubstr raw 300).data).map agentOfShape
      else none) = none)
    (h2 : cacheGet c (jsSubstr raw 300) = some a) :
    UA.classify parse c raw = (a, c, false) := by
  simp only [UA.classify, h1, h2]

theorem classify_of_miss (parse : String → Agent) (c : Cache) (raw : String)
    (h1 : (if (jsSubstr raw 300).length < 22 then
        (canonicalShape (jsSubstr raw 300).data).map agentOfShape
      else none) = none)
    (h2 : cacheGet c (jsSubstr raw 300) = none) :
    UA.classify parse c raw =
      (resolve (parse (stripNoise (jsSubstr raw 300))),
       cacheSet c (stripNoise (jsSubstr raw 300))
         (resolve (parse (stripNoise (jsSubstr raw 300)))),
       true) := by
  simp only [UA.classify, h1, h2]

theorem aliases_canonical :
    aliases.all (fun e => ruleCanonical e.2) = true := by decide

theorem vmGo_mem (sat : Agent → String → Bool) (u : Agent) :
    ∀ (es : List (String × Agent)) (bM bm : Nat) (best : Agent),
      (vmGo sat u es bM bm best).2.2 = best ∨
        (vmGo sat u es bM bm best).2.2 ∈ es.map (fun e => e.2) := by
  intro es
  induction es with
  | nil => intro bM bm best; left; rfl
  | cons e rest ih =>
    intro bM bm best
    obtain ⟨ex, t⟩ := e
    simp only [vmGo, List.map_cons]
    by_cases hs : sat u ex = true
    · rw [if_pos hs]
      right
      exact List.mem_cons_self _ _
    · rw [if_neg hs]
      have lift : ∀ bM2 bm2,
          (vmGo sat u rest bM2 bm2 best).2.2 = best ∨
            (vmGo sat u rest bM2 bm2 best).2.2 ∈ t :: rest.map (fun e => e.2) := by
        intro bM2 bm2
        rcases ih bM2 bm2 best with h | h
        · left; exact h
        · right; exact List.mem_cons_of_mem _ h
      have liftT : ∀ bM2 bm2,
          (vmGo sat u rest bM2 bm2 t).2.2 = best ∨
            (vmGo sat u rest bM2 bm2 t).2.2 ∈ t :: rest.map (fun e => e.2) := by
        intro bM2 bm2
        rcases ih bM2 bm2 t with h | h
        · right; rw [h]; exact List.mem_cons_self _ _
        · right; exact List.mem_cons_of_mem _ h
      cases hM : exprMajorDiff u ex with
      | none => exact lift bM bm
      | some dM =>
        dsimp only
        by_cases hle : dM ≤ bM
        · rw [if_pos hle]
          cases hm : exprMinorDiff u ex with
          | none => exact lift dM bm
          | some dm =>
            dsimp only
            by_cases hle2 : dm ≤ bm
            · rw [if_pos hle2]; exact liftT dM dm
            · rw [if_neg hle2]; exact lift dM bm
        · rw [if_neg hle]; exact lift bM bm

theorem find?_all_true {α : Type} (p q : α → Bool) (l : List α) (a : α)
    (hall : l.all q = true) (hf : l.find? p = some a) : q a = true := by
  have hm : a ∈ l := List.mem_of_find?_eq_some hf
  exact List.all_eq_true.mp hall a hm

theorem aliasFind_canonical (f : String) (r : AliasRule)
    (h : aliasFind f = some r) : ruleCanonical r = true := by
  unfold aliasFind at h
  rw [Option.map_eq_some'] at h
  obtain ⟨e, he, rfl⟩ := h
  exact find?_all_true _ (fun e => ruleCanonical e.2) _ e aliases_canonical he

theorem versionMapRun_canonical (u : Agent) (es : List (String × Agent))
    (hall : es.all
      (fun e => (lowerStr e.2.family == e.2.family) && (e.2.patch == 0)) = true)
    (hu : u.patch = 0) (hf : lowerStr u.family = u.family) :
    (versionMapRun semverSatisfies u es).patch = 0 ∧
      lowerStr (versionMapRun semverSatisfies u es).family =
        (versionMapRun semverSatisfies u es).family := by
  unfold versionMapRun
  rcases vmGo_mem semverSatisfies u es MAXSAFE MAXSAFE u with h | h
  · rw [h]; exact ⟨hu, hf⟩
  · rw [List.mem_map] at h
    obtain ⟨e, he, heq⟩ := h
    have h2 := List.all_eq_true.mp hall e he
    simp only [Bool.and_eq_true, beq_iff_eq] at h2
    rw [← heq]
    exact ⟨h2.2, h2.1⟩

theorem resolve_canonical (a : Agent) :
    (resolve a).patch = 0 ∧
      lowerStr (resolve a).family = (resolve a).family := by
  have hu : resolve a =
      (match aliasFind (lowerStr a.family) with
       | none => (⟨lowerStr a.family, a.major, a.minor, 0⟩ : Agent)
       | some (.rename t) => ⟨t, a.major, a.minor, 0⟩
       | some (.renameVer t M m p) => ⟨t, M, m, p⟩
       | some (.versionMap es) =>
         versionMapRun semverSatisfies ⟨lowerStr a.family, a.major, a.minor, 0⟩ es
       | some (.computed f) => f ⟨lowerStr a.family, a.major, a.minor, 0⟩) := rfl
  rw [hu]
  cases hf : aliasFind (lowerStr a.family) with
  | none =>
    exact ⟨rfl, lowerStr_idem _⟩
  | some r =>
    have hr := aliasFind_canonical _ _ hf
    cases r with
    | rename t =>
      simp only [ruleCanonical, beq_iff_eq] at hr
      exact ⟨rfl, hr⟩
    | renameVer t M m p =>
      simp only [ruleCanonical, Bool.and_eq_true, beq_iff_eq] at hr
      exact ⟨hr.2, hr.1⟩
    | versionMap es =>
      simp only [ruleCanonical] at hr
      exact versionMapRun_canonical _ es hr rfl (lowerStr_idem _)
    | computed g =>
      simp only [ruleCanonical] at hr
      exact absurd hr (by decide)

theorem toVersion_endsWith_dot_zero (u : Agent) (h : u.patch = 0) :
    strEndsWith (UA.getVersion u) ".0" = true := by
  unfold UA.getVersion UA.toVersion strEndsWith
  rw [h]
  have h2 : toString u.major ++ "." ++ toString u.minor ++ "." ++ toString (0 : Nat) =
      (toString u.major ++ "." ++ toString u.minor) ++ ".0" := by
    rw [String.append_assoc]
    rfl
  rw [h2]
  have h3 : (".0").data.isSuffixOf
      ((toString u.major ++ "." ++ toString u.minor) ++ ".0").data := by
    rw [List.isSuffixOf_iff_suffix, String.data_append]
    exact List.suffix_append _ _
  exact h3

/-- C1 (counterexample): classifying `cexRaw1` twice from an empty cache
still invokes the Parsing Adapter on the second run.  The noise-stripped
store key (`"bbbbbbbbbbbbbbbbbbbbbb"`) differs from the truncated lookup
key (`cexRaw1` itself), so the entry stored by the first classification is
not found by the second. -/
theorem C1_cache_transparency_cex :
    (UA.classify pstub ((UA.classify pstub [] cexRaw1).2.1) cexRaw1).2.2 = true := by
  decide

/-- C1 (amended): two successive classifications of the identical raw
string always yield identical records; the second one skips the Parsing
Adapter whenever noise-stripping leaves the truncated string unchanged (in
particular for every input free of the four noise patterns).  When
stripping alters the string, the store key differs from the lookup key and
the adapter runs again (see the counterexample), though the result is
still identical. -/
theorem C1_cache_transparency_amended (parse : String → Agent) (c : Cache)
    (raw : String) :
    (UA.classify parse ((UA.classify parse c raw).2.1) raw).1 =
      (UA.classify parse c raw).1 ∧
    (stripNoise (jsSubstr raw 300) = jsSubstr raw 300 →
      (UA.classify parse ((UA.classify parse c raw).2.1) raw).2.2 = false) := by
  cases h1 : (if (jsSubstr raw 300).length < 22 then
      (canonicalShape (jsSubstr raw 300).data).map agentOfShape
    else none) with
  | some a =>
    have e1 := classify_of_shape parse c raw a h1
    rw [e1]
    have e2 := classify_of_shape parse c raw a h1
    exact ⟨by rw [e2], fun _ => by rw [e2]⟩
  | none =>
    cases h2 : cacheGet c (jsSubstr raw 300) with
    | some a =>
      have e1 := classify_of_hit parse c raw a h1 h2
      rw [e1]
      have e2 := classify_of_hit parse c raw a h1 h2
      exact ⟨by rw [e2], fun _ => by rw [e2]⟩
    | none =>
      have e1 := classify_of_miss parse c raw h1 h2
      rw [e1]
      by_cases hs : stripNoise (jsSubstr raw 300) = jsSubstr raw 300
      · have h2b : cacheGet
            (cacheSet c (stripNoise (jsSubstr raw 300))
              (resolve (parse (stripNoise (jsSubstr raw 300)))))
            (jsSubstr raw 300) =
            some (resolve (parse (stripNoise (jsSubstr raw 300)))) := by
          rw [hs]
          exact cacheGet_set_self _ _ _
        have e2 := classify_of_hit parse _ raw _ h1 h2b
        rw [e2]
        exact ⟨rfl, fun _ => rfl⟩
      · have h2b : cacheGet
            (cacheSet c (stripNoise (jsSubstr raw 300))
              (resolve (parse (stripNoise (jsSubstr raw 300)))))
            (jsSubstr raw 300) = none :=
          cacheGet_set_none _ _ _ _ (fun h => hs h.symm) h2
        have e2 := classify_of_miss parse _ raw h1 h2b
        rw [e2]
        exact ⟨rfl, fun h => absurd h hs⟩

/-- Witness for C1 (amended) on the noise-free input `"abc"`. -/
theorem C1_cache_transparency_amended_witness :
    (UA.classify pstub ((UA.classify pstub [] "abc").2.1) "abc").2.2 = false :=
  (C1_cache_transparency_amended pstub [] "abc").2 (by decide)

/-- C2 (counterexample): the Result Cache lookup is not keyed by the
sanitized string.  The cache below holds the sanitized form of `cexRaw2`
(`cexKey2`, its Facebook tag stripped) with a stored tuple, yet classifying
`cexRaw2` misses and invokes the Parsing Adapter, because the lookup uses
the truncated raw string. -/
theorem C2_cache_key_cex :
    stripNoise (jsSubstr cexRaw2 300) = cexKey2 ∧
    cacheGet [(cexKey2, cexAgent)] cexKey2 = some cexAgent ∧
    (UA.classify pstub [(cexKey2, cexAgent)] cexRaw2).2.2 = true := by
  decide

/-- C2 (amended): the cache store performed on the full-resolution path is
keyed by the sanitized (truncated and noise-stripped) string — afterwards
that key holds the classification result — while the cache lookup is keyed
by the truncated string before noise-stripping, so a stored tuple is hit
exactly under that pre-strip key; the two keys coincide only when
noise-stripping is a no-op. -/
theorem C2_cache_key_amended (parse : String → Agent) (c : Cache)
    (raw : String)
    (hshape : 22 ≤ (jsSubstr raw 300).length ∨
      canonicalShape (jsSubstr raw 300).data = none) :
    (cacheGet c (jsSubstr raw 300) = none →
      cacheGet (UA.classify parse c raw).2.1 (stripNoise (jsSubstr raw 300)) =
        some (UA.classify parse c raw).1) ∧
    (∀ v, cacheGet c (jsSubstr raw 300) = some v →
      (UA.classify parse c raw).1 = v ∧ (UA.classify parse c raw).2.2 = false) := by
  have h1 : (if (jsSubstr raw 300).length < 22 then
      (canonicalShape (jsSubstr raw 300).data).map agentOfShape
    else none) = none := by
    rcases hshape with h | h
    · rw [if_neg (by omega)]
    · rw [h]
      simp
  constructor
  · intro h2
    have e1 := classify_of_miss parse c raw h1 h2
    rw [e1]
    exact cacheGet_set_self _ _ _
  · intro v h2
    have e1 := classify_of_hit parse c raw v h1 h2
    rw [e1]
    exact ⟨rfl, rfl⟩

/-- Witness for C2 (amended) on the input `"???"` with an empty cache. -/
theorem C2_cache_key_amended_witness :
    cacheGet (UA.classify pstub [] "???").2.1 (stripNoise (jsSubstr "???" 300)) =
      some (UA.classify pstub [] "???").1 :=
  (C2_cache_key_amended pstub [] "???" (Or.inr (by decide))).1 (by decide)

/-- C3 (counterexample): a canonical-shape input with an explicit patch is
rebuilt by the Fast-Path Recognizer with that patch preserved, so
`getVersion()` does not end in `".0"`. -/
theorem C3_patch_zero_cex :
    (UA.classify pstub [] "chrome/1.2.3").1.patch = 3 ∧
    UA.getVersion (UA.classify pstub [] "chrome/1.2.3").1 = "1.2.3" ∧
    strEndsWith (UA.getVersion (UA.classify pstub [] "chrome/1.2.3").1) ".0"
      = false := by
  decide

/-- C3 (amended): on the full-resolution path (whenever the Parsing Adapter
is invoked) the classified record's patch component is 0 after alias
resolution and before caching, and `getVersion()` ends in `".0"`; the
Fast-Path Recognizer's canonical-shape shortcut instead preserves an
explicit patch from the input (see the counterexample). -/
theorem C3_patch_zero_amended (parse : String → Agent) (c : Cache)
    (raw : String) (h : (UA.classify parse c raw).2.2 = true) :
    (UA.classify parse c raw).1.patch = 0 ∧
    strEndsWith (UA.getVersion (UA.classify parse c raw).1) ".0" = true := by
  cases h1 : (if (jsSubstr raw 300).length < 22 then
      (canonicalShape (jsSubstr raw 300).data).map agentOfShape
    else none) with
  | some a =>
    rw [classify_of_shape parse c raw a h1] at h
    exact Bool.noConfusion h
  | none =>
    cases h2 : cacheGet c (jsSubstr raw 300) with
    | some a =>
      rw [classify_of_hit parse c raw a h1 h2] at h
      exact Bool.noConfusion h
    | none =>
      rw [classify_of_miss parse c raw h1 h2]
      have hp := (resolve_canonical (parse (stripNoise (jsSubstr raw 300)))).1
      exact ⟨hp, toVersion_endsWith_dot_zero _ hp⟩

/-- Witness for C3 (amended) on the full-resolution input `"???"`. -/
theorem C3_patch_zero_amended_witness :
    (UA.classify pstub [] "???").1.patch = 0 ∧
    strEndsWith (UA.getVersion (UA.classify pstub [] "???").1) ".0" = true :=
  C3_patch_zero_amended pstub [] "???" (by decide)

theorem vmGo_eq_spec (sat : Agent → String → Bool) (u : Agent) :
    ∀ (es : List (String × Agent)) (bM bm : Nat) (bt : Agent),
      vmDefined u es = true →
      (vmGo sat u es bM bm bt).2.2 = specVMGo sat u es (some (bM, bm, bt)) := by
  intro es
  induction es with
  | nil => intro bM bm bt _; rfl
  | cons e rest ih =>
    intro bM bm bt hdef
    obtain ⟨ex, t⟩ := e
    rw [vmDefined, List.all_cons, Bool.and_eq_true] at hdef
    obtain ⟨hhead, hrest⟩ := hdef
    have hrest2 : vmDefined u rest = true := hrest
    simp only [vmGo, specVMGo]
    by_cases hs : sat u ex = true
    · rw [if_pos hs, if_pos hs]
    · rw [if_neg hs, if_neg hs]
      cases hM : exprMajorDiff u ex with
      | none =>
        rw [show exprMajorDiff u (ex, t).1 = none from hM] at hhead
        exact absurd hhead (by simp)
      | some dM =>
        cases hm : exprMinorDiff u ex with
        | none =>
          rw [show exprMajorDiff u (ex, t).1 = some dM from hM,
            show exprMinorDiff u (ex, t).1 = none from hm] at hhead
          exact absurd hhead (by simp)
        | some dm =>
          dsimp only
          by_cases hle : dM ≤ bM
          · rw [if_pos hle, if_pos hle]
            by_cases hle2 : dm ≤ bm
            · rw [if_pos hle2, if_pos hle2]
              exact ih _ _ _ hrest2
            · rw [if_neg hle2, if_neg hle2]
              exact ih _ _ _ hrest2
          · rw [if_neg hle, if_neg hle]
            exact ih _ _ _ hrest2

/-- C4: the VersionMap scan of UA.js:251-292 coincides with the spec's
description of the nearest-match algorithm (exact match adopted immediately
and iteration stopped; otherwise best-candidate tracking with the
major-then-minor `<=` replacement rule favoring later entries; the final
best adopted when no exact match occurred; the original record returned for
an empty table), provided every entry's leading two expression components
are numeric with diffs within `MAX_SAFE_INTEGER` — true of every table in
the source, and the only regime the spec describes. -/
theorem C4_version_map_scan (sat : Agent → String → Bool) (u : Agent)
    (es : List (String × Agent)) (h : vmDefined u es = true) :
    versionMapRun sat u es = specVersionMap sat u es ∧
    versionMapRun sat u [] = u := by
  refine ⟨?_, rfl⟩
  cases es with
  | nil => rfl
  | cons e rest =>
    obtain ⟨ex, t⟩ := e
    rw [vmDefined, List.all_cons, Bool.and_eq_true] at h
    obtain ⟨hhead, hrest⟩ := h
    have hrest2 : vmDefined u rest = true := hrest
    unfold versionMapRun specVersionMap
    simp only [vmGo, specVMGo]
    by_cases hs : sat u ex = true
    · rw [if_pos hs, if_pos hs]
    · rw [if_neg hs, if_neg hs]
      cases hM : exprMajorDiff u ex with
      | none =>
        rw [show exprMajorDiff u (ex, t).1 = none from hM] at hhead
        exact absurd hhead (by simp)
      | some dM =>
        cases hm : exprMinorDiff u ex with
        | none =>
          rw [show exprMajorDiff u (ex, t).1 = some dM from hM,
            show exprMinorDiff u (ex, t).1 = none from hm] at hhead
          exact absurd hhead (by simp)
        | some dm =>
          rw [show exprMajorDiff u (ex, t).1 = some dM from hM,
            show exprMinorDiff u (ex, t).1 = some dm from hm] at hhead
          simp only [Bool.and_eq_true, decide_eq_true_eq] at hhead
          dsimp only
          rw [if_pos hhead.1, if_pos hhead.2]
          exact vmGo_eq_spec sat u rest dM dm t hrest2

/-- Witness for C4 on the `uc browser` table with detected version 9.9. -/
theorem C4_version_map_scan_witness :
    vmDefined ⟨"uc browser", 9, 9, 0⟩ ucBrowserMap = true ∧
    versionMapRun semverSatisfies ⟨"uc browser", 9, 9, 0⟩ ucBrowserMap =
      specVersionMap semverSatisfies ⟨"uc browser", 9, 9, 0⟩ ucBrowserMap :=
  ⟨by decide,
   (C4_version_map_scan semverSatisfies ⟨"uc browser", 9, 9, 0⟩ ucBrowserMap
     (by decide)).1⟩

/-- C5 (counterexample): the canonical-shape test does not operate on the
sanitized string.  `cexRaw5` sanitizes to `"chrome/34"`, which is shorter
than 22 characters and matches the canonical shape, yet classification
invokes the Parsing Adapter instead of taking the fast path, because the
shape test ran on the 22-character pre-strip string. -/
theorem C5_sanitizer_order_cex :
    (stripNoise (jsSubstr cexRaw5 300)).length < 22 ∧
    canonicalShapeB (stripNoise (jsSubstr cexRaw5 300)) = true ∧
    (UA.classify pstub [] cexRaw5).2.2 = true := by
  decide

/-- C5 (amended): both Fast-Path checks — the canonical-shape test and the
Result Cache lookup — operate on the truncated raw string before
noise-substring removal; the noise removal of the Sanitizer runs only on
the miss path, after both checks and before the Parsing Adapter, which
receives the fully sanitized string. -/
theorem C5_sanitizer_order_amended (parse : String → Agent) (c : Cache)
    (raw : String) :
    ((jsSubstr raw 300).length < 22 →
      ∀ g, canonicalShape (jsSubstr raw 300).data = some g →
        UA.classify parse c raw = (agentOfShape g, c, false)) ∧
    ((22 ≤ (jsSubstr raw 300).length ∨
        canonicalShape (jsSubstr raw 300).data = none) →
      ∀ v, cacheGet c (jsSubstr raw 300) = some v →
        UA.classify parse c raw = (v, c, false)) ∧
    ((22 ≤ (jsSubstr raw 300).length ∨
        canonicalShape (jsSubstr raw 300).data = none) →
      cacheGet c (jsSubstr raw 300) = none →
      (UA.classify parse c raw).1 =
        resolve (parse (stripNoise (jsSubstr raw 300))) ∧
      (UA.classify parse c raw).2.2 = true) := by
  refine ⟨?_, ?_, ?_⟩
  · intro hlen g hg
    exact classify_of_shape parse c raw (agentOfShape g)
      (by rw [if_pos hlen, hg]; rfl)
  · intro hshape v hv
    have h1 : (if (jsSubstr raw 300).length < 22 then
        (canonicalShape (jsSubstr raw 300).data).map agentOfShape
      else none) = none := by
      rcases hshape with h | h
      · rw [if_neg (by omega)]
      · rw [h]; simp
    exact classify_of_hit parse c raw v h1 hv
  · intro hshape hv
    have h1 : (if (jsSubstr raw 300).length < 22 then
        (canonicalShape (jsSubstr raw 300).data).map agentOfShape
      else none) = none := by
      rcases hshape with h | h
      · rw [if_neg (by omega)]
      · rw [h]; simp
    rw [classify_of_miss parse c raw h1 hv]
    exact ⟨rfl, rfl⟩

/-- Witness for C5 (amended): the fast-path conjunct applied to
`"Chrome/34"`. -/
theorem C5_sanitizer_order_amended_witness :
    UA.classify pstub [] "Chrome/34" =
      (agentOfShape ("Chrome", 34, none, none), [], false) :=
  (C5_sanitizer_order_amended pstub [] "Chrome/34").1 (by decide)
    ("Chrome", 34, none, none) (by decide)

/-- C6: `satisfies(range)` returns true exactly when the resolved record
satisfies the caller-supplied range, the resolved family is present in the
baseline table, and the record satisfies that family's baseline range; and
the unparseable input `"???"` (family absent from the baseline table)
yields `isUnknown() = true` and `satisfies("*") = false`. -/
theorem C6_satisfies_gate :
    (∀ u r, UA.satisfies u r =
      (semverSatisfies u r &&
        match baselineFind u.family with
        | some e => semverSatisfies u e
        | none => false)) ∧
    UA.isUnknown (UA.classify pstub [] "???").1 = true ∧
    UA.satisfies (UA.classify pstub [] "???").1 "*" = false := by
  refine ⟨?_, by decide, by decide⟩
  intro u r
  unfold UA.satisfies UA.uaSatOpt
  cases hb : baselineFind u.family with
  | none => simp [hb]
  | some e => simp [hb]

/-- C7 (counterexample): the Fast-Path Recognizer's canonical-shape
shortcut preserves the input's letter case, so `getFamily()` is not always
lowercase: `"Chrome/34"` classifies to family `"Chrome"`. -/
theorem C7_family_lowercase_cex :
    UA.getFamily (UA.classify pstub [] "Chrome/34").1 = "Chrome" ∧
    lowerStr (UA.getFamily (UA.classify pstub [] "Chrome/34").1) ≠
      UA.getFamily (UA.classify pstub [] "Chrome/34").1 := by
  decide

/-- C7 (amended): on the full-resolution path (whenever the Parsing Adapter
is invoked) `getFamily()` is lowercase — the detected family is lowercased
before the alias lookup and every alias target family in the table is
lowercase; the canonical-shape shortcut instead returns the captured name
with its case preserved (see the counterexample). -/
theorem C7_family_lowercase_amended (parse : String → Agent) (c : Cache)
    (raw : String) (h : (UA.classify parse c raw).2.2 = true) :
    lowerStr (UA.getFamily (UA.classify parse c raw).1) =
      UA.getFamily (UA.classify parse c raw).1 := by
  cases h1 : (if (jsSubstr raw 300).length < 22 then
      (canonicalShape (jsSubstr raw 300).data).map agentOfShape
    else none) with
  | some a =>
    rw [classify_of_shape parse c raw a h1] at h
    exact Bool.noConfusion h
  | none =>
    cases h2 : cacheGet c (jsSubstr raw 300) with
    | some a =>
      rw [classify_of_hit parse c raw a h1 h2] at h
      exact Bool.noConfusion h
    | none =>
      rw [classify_of_miss parse c raw h1 h2]
      exact (resolve_canonical (parse (stripNoise (jsSubstr raw 300)))).2

/-- Witness for C7 (amended) on the full-resolution input `"???"`. -/
theorem C7_family_lowercase_amended_witness :
    lowerStr (UA.getFamily (UA.classify pstub [] "???").1) =
      UA.getFamily (UA.classify pstub [] "???").1 :=
  C7_family_lowercase_amended pstub [] "???" (by decide)

/-- C8 (counterexample): `normalize` is not idempotent.  With the
instrumented adapter stub `pstubUC` (which reports UC Browser 10, the
family name whose alias target is the space-containing canonical family
`"uc browser"`), `normalize("x")` is `"uc browser/0.0.0"`; that string
fails the canonical-shape test (a space is not a word character), so a
second `normalize` re-classifies it and returns `"other/0.0.0"`. -/
theorem C8_normalize_idem_cex :
    (UA.normalize pstubUC [] "x").1 = "uc browser/0.0.0" ∧
    (UA.normalize pstubUC (UA.normalize pstubUC [] "x").2
        (UA.normalize pstubUC [] "x").1).1 = "other/0.0.0" ∧
    (UA.normalize pstubUC (UA.normalize pstubUC [] "x").2
        (UA.normalize pstubUC [] "x").1).1 ≠ (UA.normalize pstubUC [] "x").1 := by
  decide

/-- C8 (amended): `normalize` is idempotent on every input whose first
`normalize` output matches the canonical `family/major.minor.patch` shape
and is unchanged by lowercasing — the second call then takes the
lowercasing shortcut and returns the string itself.  The output can fail
the shape test only when the classified family contains a character
outside `\w` (such as the space in `"uc browser"`), in which case
idempotence can fail (see the counterexample). -/
theorem C8_normalize_idem_amended (parse : String → Agent) (c : Cache)
    (s : String)
    (h1 : canonicalShapeB (UA.normalize parse c s).1 = true)
    (h2 : lowerStr (UA.normalize parse c s).1 = (UA.normalize parse c s).1) :
    (UA.normalize parse (UA.normalize parse c s).2
        (UA.normalize parse c s).1).1 = (UA.normalize parse c s).1 := by
  conv_lhs => rw [UA.normalize]
  rw [if_pos h1]
  exact h2

/-- Witness for C8 (amended) on the canonical-shape output of
`normalize("Chrome/34")`. -/
theorem C8_normalize_idem_amended_witness :
    (UA.normalize pstub (UA.normalize pstub [] "Chrome/34").2
        (UA.normalize pstub [] "Chrome/34").1).1 =
      (UA.normalize pstub [] "Chrome/34").1 :=
  C8_normalize_idem_amended pstub [] "Chrome/34" (by decide) (by decide)

/-- C9 (counterexample): the tracked minimum minor-diff is not a global
minimum over all scanned entries.  For detected version 10.5 over
`vmCexEntries`, the first entry has minor-diff 5 and the second 0, yet the
final tracked minor-diff is 5: the second entry failed the major-diff gate
(3 > 0), so its minor-diff never entered the tracked minimum, which
therefore differs from the global minimum 0 = min 5 0. -/
theorem C9_tracked_minor_cex :
    (vmGo semverSatisfies vmCexU vmCexEntries MAXSAFE MAXSAFE vmCexU).2.1 = 5 ∧
    exprMinorDiff vmCexU "10.0" = some 5 ∧
    exprMinorDiff vmCexU "7.5" = some 0 ∧
    (vmGo semverSatisfies vmCexU vmCexEntries MAXSAFE MAXSAFE vmCexU).2.1 ≠
      min 5 0 := by
  decide

/-- C9 (amended): the tracked minimum minor-diff is a running minimum only
over the entries that passed the major-diff gate (`majorDiff <=` best so
far), not over all scanned entries; both tracked diffs are
never reset upward (they only decrease along the scan).  Consequently an
entry can strictly lower the recorded best major-diff without being
adopted as the candidate — over `vmAmEntries` with detected version 20.0
the second entry lowers the best major-diff from 10 to 5 but its minor-diff
5 exceeds the tracked minimum 0, so the first entry (of major-diff 10, not
minimal) remains the adopted candidate. -/
theorem C9_tracked_minor_amended :
    (∀ (sat : Agent → String → Bool) (u : Agent)
        (es : List (String × Agent)) (bM bm : Nat) (best : Agent),
      (vmGo sat u es bM bm best).1 ≤ bM ∧
        (vmGo sat u es bM bm best).2.1 ≤ bm) ∧
    (vmGo semverSatisfies vmAmU vmAmEntries MAXSAFE MAXSAFE vmAmU =
      (5, 0, ⟨"a", 1, 0, 0⟩) ∧
     exprMajorDiff vmAmU "10.0" = some 10 ∧
     exprMajorDiff vmAmU "15.5" = some 5) := by
  refine ⟨?_, by decide⟩
  intro sat u es
  induction es with
  | nil => intro bM bm best; exact ⟨Nat.le_refl _, Nat.le_refl _⟩
  | cons e rest ih =>
    intro bM bm best
    obtain ⟨ex, t⟩ := e
    simp only [vmGo]
    by_cases hs : sat u ex = true
    · rw [if_pos hs]
      exact ⟨Nat.le_refl _, Nat.le_refl _⟩
    · rw [if_neg hs]
      cases hM : exprMajorDiff u ex with
      | none => exact ih bM bm best
      | some dM =>
        dsimp only
        by_cases hle : dM ≤ bM
        · rw [if_pos hle]
          cases hm : exprMinorDiff u ex with
          | none =>
            obtain ⟨a1, a2⟩ := ih dM bm best
            exact ⟨Nat.le_trans a1 hle, a2⟩
          | some dm =>
            dsimp only
            by_cases hle2 : dm ≤ bm
            · rw [if_pos hle2]
              obtain ⟨a1, a2⟩ := ih dM dm t
              exact ⟨Nat.le_trans a1 hle, Nat.le_trans a2 hle2⟩
            · rw [if_neg hle2]
              obtain ⟨a1, a2⟩ := ih dM bm best
              exact ⟨Nat.le_trans a1 hle, a2⟩
        · rw [if_neg hle]
          exact ih bM bm best

/-- C10: `satisfies()` and `isUnknown()` are guarded by the baseline-table
membership test, so both produce a definite answer with no baseline range
test when the family is absent, while `meetsBaseline()` applies the range
test unconditionally and is well-defined exactly when the resolved family
is present in the table. -/
theorem C10_baseline_guard :
    (∀ u : Agent, (UA.meetsBaseline u).isSome = (baselineFind u.family).isSome) ∧
    (∀ (u : Agent) (r : String), baselineFind u.family = none →
      UA.satisfies u r = false ∧ UA.isUnknown u = true ∧
        UA.meetsBaseline u = none) := by
  constructor
  · intro u
    unfold UA.meetsBaseline UA.uaSatOpt
    cases baselineFind u.family <;> rfl
  · intro u r h
    unfold UA.satisfies UA.isUnknown UA.meetsBaseline UA.uaSatOpt
    rw [h]
    exact ⟨by simp, by simp, rfl⟩

/-- Witness for C10 on a family absent from the baseline table. -/
theorem C10_baseline_guard_witness :
    baselineFind (Agent.mk "nosuch" 1 0 0).family = none ∧
    (UA.satisfies ⟨"nosuch", 1, 0, 0⟩ "*" = false ∧
      UA.isUnknown ⟨"nosuch", 1, 0, 0⟩ = true ∧
      UA.meetsBaseline ⟨"nosuch", 1, 0, 0⟩ = none) :=
  ⟨by decide, C10_baseline_guard.2 ⟨"nosuch", 1, 0, 0⟩ "*" (by decide)⟩
